import Mathlib

/-!
# Verification of `qr_generator.py`

Shallow embedding of the QR-generation utility `src/qr_generator.py`
(functions `is_valid_url`, `is_hex_color`, `generate_qr`) together with
the parts of its environment the code observably depends on:

* CPython's `urllib.parse.urlsplit` (modern CPython, 3.10+), restricted to
  the scheme/netloc extraction that `is_valid_url` reads.  Strings are
  modelled as `List Char` and the model is faithful on ASCII input;
  bracketed IP-literal hosts (whose validation CPython delegates to
  `ipaddress`) are modelled as a parse failure, and the non-ASCII netloc
  check is over-approximated to a failure.  No theorem below depends on
  either of those two corners: universally quantified statements carry
  hypotheses keeping inputs in the faithful fragment.
* Python `str.strip` (ASCII/Latin-1 whitespace).
* Python `re` semantics for the concrete pattern
  `^#([0-9a-fA-F]{3}|[0-9a-fA-F]6})$` — in particular the fact that `$`
  also matches just before a single trailing newline.
* `pathlib.PurePath.name` / `.suffix` / `.with_suffix` / `Path.resolve`
  on a structural path value (absolute flag + components).
* The argument checks performed by the external `qrcode.QRCode`
  constructor (`box_size > 0`, `border >= 0`).

`generate_qr` is embedded as a function returning its repository-level
result together with the trace of external calls it attempted, so that
"before any external call" claims become statements about the trace.
-/

/-- Python `str.strip()` whitespace, restricted to the ASCII/Latin-1 range
(space, tab, linefeed, carriage return, vertical tab, form feed, the
C1 separators 0x1c–0x1f, and NEL 0x85).  Wider Unicode whitespace is not
modelled; every theorem below only needs this range. -/
def pyIsSpace (c : Char) : Bool :=
  c = ' ' || c = '\t' || c = '\n' || c = '\r' || c = '\x0b' || c = '\x0c' ||
  c = '\x1c' || c = '\x1d' || c = '\x1e' || c = '\x1f' || c = '\x85'

/-- Python `str.strip()`: drop leading and trailing whitespace. -/
def pyStrip (l : List Char) : List Char :=
  ((l.dropWhile pyIsSpace).reverse.dropWhile pyIsSpace).reverse

/-- CPython `urllib.parse`: `_WHATWG_C0_CONTROL_OR_SPACE` — code points
U+0000 through U+0020 inclusive. -/
def isC0OrSpace (c : Char) : Bool := c.toNat ≤ 32

/-- CPython `urllib.parse`: `_UNSAFE_URL_BYTES_TO_REMOVE` — tab, carriage
return and linefeed are removed from anywhere in the URL. -/
def removeTabCrNl (l : List Char) : List Char :=
  l.filter (fun c => !(c = '\t' || c = '\r' || c = '\n'))

/-- CPython `urllib.parse.scheme_chars`: ASCII letters and digits and
`+`, `-`, `.`. -/
def isSchemeChar (c : Char) : Bool :=
  c.isAlphanum || c = '+' || c = '-' || c = '.'

/-- CPython `urlsplit` scheme detection: if the string has a `:` at some
index `i > 0`, its first character is an ASCII letter, and every character
strictly between is a scheme character, the scheme is the prefix before the
colon **lowercased** and the remainder follows the colon; otherwise the
scheme is empty and the string is unchanged. -/
def headIsAsciiAlpha (l : List Char) : Bool :=
  match l with
  | c :: _ => c.isAlpha
  | [] => false

def splitScheme (l : List Char) : List Char × List Char :=
  let pre := l.takeWhile (fun c => c ≠ ':')
  if pre.length < l.length ∧ 0 < pre.length ∧ headIsAsciiAlpha l = true ∧
      (pre.drop 1).all isSchemeChar = true then
    (pre.map Char.toLower, l.drop (pre.length + 1))
  else
    ([], l)

/-- CPython `_splitnetloc`: when the remainder starts with `//`, the netloc
is everything up to the first `/`, `?` or `#`. -/
def splitNetloc (l : List Char) : List Char × List Char :=
  match l with
  | '/' :: '/' :: rest =>
    let nl := rest.takeWhile (fun c => !(c = '/' || c = '?' || c = '#'))
    (nl, rest.drop nl.length)
  | _ => ([], l)

/-- Result of the modelled `urlsplit`: either the (scheme, netloc) pair or
a `ValueError` message. -/
inductive SplitResult where
  | ok (scheme netloc : List Char)
  | error (msg : List Char)
deriving DecidableEq, Repr

/-- CPython `urllib.parse.urlsplit`, restricted to scheme/netloc
extraction: strip leading C0-control-or-space, remove unsafe bytes, detect
the scheme (lowercasing it), split the netloc after `//`, reject bracket
mismatches (`ValueError: Invalid IPv6 URL`).  A matched-bracket IP-literal
host is modelled as a failure (CPython validates it via `ipaddress` and
accepts only well-formed IP literals — outside this model), as is a
non-ASCII netloc (CPython rejects only those whose NFKC decomposition
introduces URL delimiters).  No theorem below exercises those two cases.

The bracket checks and `_checknetloc` are applied to the extracted
(scheme, netloc) pair by `checkNetloc`; `urlsplitSN` below composes the
full extraction. -/
def checkNetloc (scheme netloc : List Char) : SplitResult :=
  if (netloc.contains '[' && !(netloc.contains ']')) ||
     (netloc.contains ']' && !(netloc.contains '[')) then
    .error ("Invalid IPv6 URL".data)
  else if netloc.contains '[' && netloc.contains ']' then
    .error ("IP-literal host: outside model".data)
  else if netloc.all (fun c => c.toNat < 128) then
    .ok scheme netloc
  else
    .error ("netloc contains invalid characters".data)

def urlsplitSN (url0 : List Char) : SplitResult :=
  checkNetloc
    (splitScheme (removeTabCrNl (url0.dropWhile isC0OrSpace))).1
    (splitNetloc (splitScheme (removeTabCrNl (url0.dropWhile isC0OrSpace))).2).1

/-- `is_valid_url` from `src/qr_generator.py`: parse `url.strip()` with
`urlparse` and require `parsed.scheme in {"http", "https"} and
bool(parsed.netloc)`; any parser `ValueError` is caught and yields
`False`. -/
def is_valid_url (url : String) : Bool :=
  match urlsplitSN (pyStrip url.data) with
  | .ok scheme netloc =>
    (scheme == "http".data || scheme == "https".data) && !netloc.isEmpty
  | .error _ => false

/-- One hexadecimal digit as accepted by the character class
`[0-9a-fA-F]` of `HEX_COLOR`. -/
def isHexDigitChar (c : Char) : Bool :=
  ('0' ≤ c && c ≤ '9') || ('a' ≤ c && c ≤ 'f') || ('A' ≤ c && c ≤ 'F')

/-- The group `([0-9a-fA-F]{3}|[0-9a-fA-F]{6})` of `HEX_COLOR`: exactly
three or exactly six hex digits. -/
def hexCoreMatch (l : List Char) : Bool :=
  (l.length == 3 || l.length == 6) && l.all isHexDigitChar

/-- `is_hex_color` from `src/qr_generator.py`:
`bool(HEX_COLOR.match(value))` with
`HEX_COLOR = re.compile(r"^#([0-9a-fA-F]{3}|[0-9a-fA-F]{6})$")`.
Python's `$` (without `re.MULTILINE`) matches at the end of the string
*or just before a newline at the end of the string*, so the pattern also
accepts a value carrying one trailing `\n` after the digits. -/
def is_hex_color (value : String) : Bool :=
  match value.data with
  | '#' :: rest =>
    hexCoreMatch rest ||
      (rest.getLast? == some '\n' && hexCoreMatch rest.dropLast)
  | _ => false

/-- A `pathlib` path value: absolute flag plus the non-root components
(`pathlib` keeps the root as a pseudo-component; here it is the flag).
`pathlib` parsing guarantees components are non-empty and never `"."`;
paths are constructed directly as values here, so the invariant is a
convention of use, not enforced. -/
structure PyPath where
  isAbs : Bool
  parts : List (List Char)
deriving DecidableEq, Repr

/-- `pathlib.PurePath.name`: the final component, or empty when there is
none (e.g. `Path(".")` or `Path("/")`). -/
def pyName (p : PyPath) : List Char :=
  (p.parts.getLast?).getD []

/-- `pathlib.PurePath.suffix` of a *name*: the substring from the last
dot `.` onward, provided that dot is neither the first nor the last
character of the name; otherwise empty. -/
def pySuffix (n : List Char) : List Char :=
  let b := n.reverse.takeWhile (fun c => c ≠ '.')
  if 0 < b.length ∧ b.length + 1 < n.length then '.' :: b.reverse else []

/-- Result of `with_suffix`: the new path, or the `ValueError` message
`pathlib` raises. -/
inductive PathResult where
  | ok (p : PyPath)
  | error (msg : List Char)
deriving DecidableEq, Repr

/-- `pathlib.PurePath.with_suffix(suffix)`: reject a suffix containing a
separator, a non-empty suffix not starting with `.`, or the bare `.`;
reject a path with an empty name; otherwise drop the old suffix (if any)
from the name and append the new one. -/
def pyWithSuffix (p : PyPath) (suffix : List Char) : PathResult :=
  if suffix.contains '/' then .error ("Invalid suffix".data)
  else if (!suffix.isEmpty && suffix.head? ≠ some '.') || suffix = ['.'] then
    .error ("Invalid suffix".data)
  else if (pyName p).isEmpty then .error ("empty name".data)
  else if (pySuffix (pyName p)).isEmpty then
    .ok ⟨p.isAbs, p.parts.dropLast ++ [pyName p ++ suffix]⟩
  else
    .ok ⟨p.isAbs, p.parts.dropLast ++
      [(pyName p).take ((pyName p).length - (pySuffix (pyName p)).length) ++
        suffix]⟩

/-- `pathlib.Path.resolve()` relative to a current working directory,
ignoring symlinks and `..` normalization (none of the claims exercise
them): an absolute path resolves to itself, a relative path is anchored
under the cwd.  The result is always absolute. -/
def pyResolve (cwd p : PyPath) : PyPath :=
  if p.isAbs then p else ⟨true, cwd.parts ++ p.parts⟩

/-- The errors `generate_qr` can surface.  The code raises `ValueError`
with a message; the spec names the first two `InvalidPayload` and
`InvalidColor`.  `externalValueError` is the `ValueError` raised by the
external `qrcode.QRCode` constructor's argument checks;
`pathError` the `ValueError` raised by `with_suffix`. -/
inductive GenError where
  | invalidURL
  | invalidColor
  | externalValueError (which : List Char)
  | pathError (msg : List Char)
deriving DecidableEq, Repr

/-- Repository-level result of `generate_qr`. -/
inductive GenResult where
  | ok (p : PyPath)
  | err (e : GenError)
deriving DecidableEq, Repr

/-- External calls `generate_qr` can attempt, in source order:
`qrcode.QRCode(...)` construction, `qr.add_data(url)`,
`qr.make(fit=True)`, `qr.make_image(...)`, `img.save(path)` (the only
filesystem write). -/
inductive Event where
  | constructQR (box_size border : Int)
  | addData (payload : List Char)
  | makeGrid
  | makeImage (fill back : List Char)
  | save (p : PyPath)
deriving DecidableEq, Repr

/-- Outcome of one `generate_qr` invocation: the value returned or error
raised, together with the trace of external calls attempted. -/
structure GenOutcome where
  result : GenResult
  events : List Event
deriving DecidableEq, Repr

/-- `generate_qr` from `src/qr_generator.py`.  Steps in source order:
validate the URL (raise `ValueError` = `InvalidPayload`), validate both
colors (raise `ValueError` = `InvalidColor`), construct `qrcode.QRCode`
(the external constructor checks `box_size > 0` then `border >= 0` and
raises `ValueError` otherwise), `add_data(url)` with the *original*
`url`, `make`, `make_image` (external encoding/rendering succeed in the
model; the encoder's capacity limit is not exercised by any claim),
`out_path.with_suffix(".png")`, `img.save(out_path)`, return
`out_path`. -/
def generate_qr (url : String) (out_path : PyPath) (box_size border : Int)
    (fill_color back_color : String) : GenOutcome :=
  if !(is_valid_url url) then ⟨.err .invalidURL, []⟩
  else if !(is_hex_color fill_color) || !(is_hex_color back_color) then
    ⟨.err .invalidColor, []⟩
  else if box_size ≤ 0 then
    ⟨.err (.externalValueError ("box_size".data)), [.constructQR box_size border]⟩
  else if border < 0 then
    ⟨.err (.externalValueError ("border".data)), [.constructQR box_size border]⟩
  else
    let evs : List Event :=
      [.constructQR box_size border, .addData url.data, .makeGrid,
       .makeImage fill_color.data back_color.data]
    match pyWithSuffix out_path (".png".data) with
    | .error m => ⟨.err (.pathError m), evs⟩
    | .ok p => ⟨.ok p, evs ++ [.save p]⟩

/-- Modelled from the spec: the Image Renderer (external collaborator,
spec §4.3 step 4 / §6) produces a square pixel image measuring
`(gridSide + 2 × borderWidth) × moduleSize` pixels per edge, where
`gridSide` is the module-grid side chosen by the Symbol Encoder for the
payload. -/
def imageSide (gridSide border box_size : Nat) : Nat :=
  (gridSide + 2 * border) * box_size

/-- The spec's reading of the hex-color grammar (claim C2): `#` followed
by exactly 3 or 6 hex digits, anchored at both ends — *without* the
trailing-newline allowance Python's `$` actually has.  Kept for
comparison with `is_hex_color`. -/
def specHexColor (s : String) : Bool :=
  match s.data with
  | '#' :: rest => hexCoreMatch rest
  | _ => false

/-- The spec's reading of the URL scheme check (claim C1): the trimmed
string must literally start with lowercase `http://` or `https://`.
Kept for comparison with `is_valid_url`. -/
def lowercaseHttpScheme (l : List Char) : Bool :=
  ("http://".data.isPrefixOf l) || ("https://".data.isPrefixOf l)

/-- Host-character class used in the C1 characterization: an ASCII
letter/digit, `.` or `-` (a representative subset of what URL
authorities contain; the explicit ASCII bound keeps the input inside the
fragment on which the `urlsplit` model is faithful). -/
def isHostChar (c : Char) : Bool :=
  c.toNat < 128 && (c.isAlphanum || c = '.' || c = '-')

-- sanity examples (spec §8 examples, validators, path model, pipeline)
example : is_hex_color "#FFF" = true := by decide
example : is_hex_color "#GGG" = false := by decide
example : is_hex_color "red" = false := by decide
example : is_hex_color "#1234" = false := by decide
example : is_valid_url "https://example.com" = true := by decide
example : is_valid_url "ftp://example.com" = false := by decide
example : is_valid_url "HTTP://example.com" = true := by decide
example : is_valid_url "http://[abc" = false := by decide
example : is_hex_color "#FFF\n" = true := by decide
example : pyWithSuffix ⟨false, ["out.jpg".data]⟩ (".png".data) =
    .ok ⟨false, ["out.png".data]⟩ := by decide
example : pyWithSuffix ⟨false, ["qr_output".data]⟩ (".png".data) =
    .ok ⟨false, ["qr_output.png".data]⟩ := by decide
example : pyWithSuffix ⟨true, []⟩ (".png".data) = .error ("empty name".data) := by
  decide
example :
    (generate_qr "ftp://example.com" ⟨false, ["o.png".data]⟩ 10 4 "#000000" "#FFFFFF")
      = ⟨.err .invalidURL, []⟩ := by decide
example :
    (generate_qr "https://example.com" ⟨false, ["o.jpg".data]⟩ 10 4 "#000000" "#FFFFFF").result
      = .ok ⟨false, ["o.png".data]⟩ := by decide

/-! ## Helper lemmas -/

theorem takeWhile_append_all {α : Type} {p : α → Bool} {l : List α} (r : List α)
    (h : l.all p = true) : (l ++ r).takeWhile p = l ++ r.takeWhile p := by
  induction l with
  | nil => rfl
  | cons a t ih =>
    rw [List.all_cons, Bool.and_eq_true] at h
    simp [List.takeWhile_cons_of_pos h.1, ih h.2]

theorem takeWhile_eq_self_of_all {α : Type} {p : α → Bool} {l : List α}
    (h : l.all p = true) : l.takeWhile p = l := by
  have h2 := takeWhile_append_all (p := p) (l := l) [] h
  simpa using h2

theorem takeWhile_append_stop {α : Type} {p : α → Bool} {l : List α} {x : α}
    (r : List α) (hl : l.all p = true) (hx : p x = false) :
    (l ++ x :: r).takeWhile p = l := by
  rw [takeWhile_append_all _ hl, List.takeWhile_cons_of_neg (by simp [hx]),
    List.append_nil]

theorem contains_eq_false_of_all {p : Char → Bool} {l : List Char} {x : Char}
    (h : l.all p = true) (hx : p x = false) : l.contains x = false := by
  induction l with
  | nil => rfl
  | cons a t ih =>
    rw [List.all_cons, Bool.and_eq_true] at h
    rw [List.contains_cons]
    by_cases hxa : x = a
    · subst hxa; rw [h.1] at hx; cases hx
    · have hb : (x == a) = false := by simp [hxa]
      rw [hb, ih h.2, Bool.or_self]

theorem pyIsSpace_true_cases {c : Char} (h : pyIsSpace c = true) :
    c = ' ' ∨ c = '\t' ∨ c = '\n' ∨ c = '\r' ∨ c = '\x0b' ∨ c = '\x0c' ∨
    c = '\x1c' ∨ c = '\x1d' ∨ c = '\x1e' ∨ c = '\x1f' ∨ c = '\x85' := by
  unfold pyIsSpace at h
  simpa only [Bool.or_eq_true, decide_eq_true_eq, or_assoc] using h

theorem pyStrip_eq_self_of_all {l : List Char}
    (h : l.all (fun c => !pyIsSpace c) = true) : pyStrip l = l := by
  unfold pyStrip
  have h1 : l.dropWhile pyIsSpace = l := by
    cases l with
    | nil => rfl
    | cons a t =>
      rw [List.all_cons, Bool.and_eq_true] at h
      have : pyIsSpace a = false := by
        cases hsp : pyIsSpace a
        · rfl
        · rw [hsp] at h; cases h.1
      exact List.dropWhile_cons_of_neg (by simp [this])
  rw [h1]
  have hrev : l.reverse.all (fun c => !pyIsSpace c) = true := by
    rw [List.all_eq_true] at h ⊢
    intro x hx
    exact h x (List.mem_reverse.mp hx)
  have h2 : l.reverse.dropWhile pyIsSpace = l.reverse := by
    cases hr : l.reverse with
    | nil => rfl
    | cons a t =>
      rw [hr, List.all_cons, Bool.and_eq_true] at hrev
      have : pyIsSpace a = false := by
        cases hsp : pyIsSpace a
        · rfl
        · rw [hsp] at hrev; cases hrev.1
      exact List.dropWhile_cons_of_neg (by simp [this])
  rw [h2, List.reverse_reverse]

theorem isC0OrSpace_false_of_alpha {c : Char} (h : c.isAlpha = true) :
    isC0OrSpace c = false := by
  cases h0 : isC0OrSpace c
  · rfl
  · exfalso
    unfold isC0OrSpace at h0
    have h32 : c.toNat ≤ 32 := of_decide_eq_true h0
    have henum : ∀ n : Fin 33, (Char.ofNat n.val).isAlpha = false := by decide
    have hc : Char.ofNat c.toNat = c := Char.ofNat_toNat c
    have := henum ⟨c.toNat, Nat.lt_succ_of_le h32⟩
    rw [hc] at this
    rw [h] at this
    cases this

/-! ## Claim theorems -/

/-- C6.  If the payload fails URL validation, `generate_qr` raises the
`InvalidPayload` `ValueError` immediately: no external call is attempted
(the event trace is empty), hence no symbol encoding and no filesystem
write. -/
theorem generate_qr_invalid_url_rejected_no_work (url : String)
    (out_path : PyPath) (box_size border : Int) (fill back : String)
    (h : is_valid_url url = false) :
    generate_qr url out_path box_size border fill back =
      ⟨.err .invalidURL, []⟩ := by
  simp [generate_qr, h]

theorem generate_qr_invalid_url_rejected_no_work_witness :
    is_valid_url "ftp://example.com" = false ∧
    generate_qr "ftp://example.com" ⟨false, ["qr_output.png".data]⟩ 10 4
      "#000000" "#FFFFFF" = ⟨.err .invalidURL, []⟩ :=
  ⟨by decide,
   generate_qr_invalid_url_rejected_no_work _ _ _ _ _ _ (by decide)⟩

/-- C7.  If the payload is a valid URL but either color fails the hex
grammar, `generate_qr` raises the `InvalidColor` `ValueError` before any
external call — in particular before any encoding attempt (the event
trace is empty). -/
theorem generate_qr_invalid_color_rejected_no_work (url : String)
    (out_path : PyPath) (box_size border : Int) (fill back : String)
    (h1 : is_valid_url url = true)
    (h2 : is_hex_color fill = false ∨ is_hex_color back = false) :
    generate_qr url out_path box_size border fill back =
      ⟨.err .invalidColor, []⟩ := by
  rcases h2 with h2 | h2 <;> simp [generate_qr, h1, h2]

theorem generate_qr_invalid_color_rejected_no_work_witness :
    is_valid_url "https://example.com" = true ∧
    generate_qr "https://example.com" ⟨false, ["qr_output.png".data]⟩ 10 4
      "blue" "#FFFFFF" = ⟨.err .invalidColor, []⟩ :=
  ⟨by decide,
   generate_qr_invalid_color_rejected_no_work _ _ _ _ _ _ (by decide)
     (Or.inl (by decide))⟩

/-- C9.  The rendered image measures `(gridSide + 2·borderWidth) ×
moduleSize` pixels per edge, and — with the payload (hence `gridSide`)
fixed — strictly increasing the module size or the border width strictly
increases the pixel dimensions. -/
theorem imageSide_formula_monotone (g b b' m m' : Nat) (hg : 0 < g) :
    imageSide g b m = (g + 2 * b) * m ∧
    (m < m' → imageSide g b m < imageSide g b m') ∧
    (0 < m → b < b' → imageSide g b m < imageSide g b' m) := by
  refine ⟨rfl, ?_, ?_⟩
  · intro hm
    have hpos : 0 < g + 2 * b := by omega
    exact mul_lt_mul_of_pos_left hm hpos
  · intro hm hb
    have hlt : g + 2 * b < g + 2 * b' := by omega
    exact mul_lt_mul_of_pos_right hlt hm

theorem imageSide_formula_monotone_witness :
    imageSide 21 4 10 = (21 + 2 * 4) * 10 ∧
    imageSide 21 4 10 < imageSide 21 4 11 ∧
    imageSide 21 4 10 < imageSide 21 5 10 :=
  have h := imageSide_formula_monotone 21 4 5 10 11 (by decide)
  ⟨h.1, h.2.1 (by decide), h.2.2 (by decide) (by decide)⟩

/-- C2, counterexample.  `is_hex_color` is *not* an exact full match of
`#` + 3-or-6 hex digits: Python's `$` also matches just before a trailing
newline, so `"#FFF\n"` is accepted although it does not belong to the
spec's grammar. -/
theorem is_hex_color_trailing_newline_accepted :
    is_hex_color "#FFF\n" = true ∧ specHexColor "#FFF\n" = false := by
  decide

/-- C2, amended.  `is_hex_color value` is true iff `value` is `#`
followed by exactly 3 or exactly 6 hexadecimal digits, optionally
followed by one trailing newline (the trailing-newline allowance is
Python's `$` semantics). -/
theorem is_hex_color_iff_hex_grammar_newline (value : String) :
    is_hex_color value = true ↔
      ∃ d : List Char,
        (value.data = '#' :: d ∨ value.data = '#' :: (d ++ ['\n'])) ∧
        (d.length = 3 ∨ d.length = 6) ∧ d.all isHexDigitChar = true := by
  unfold is_hex_color
  cases hs : value.data with
  | nil => simp
  | cons c rest =>
    by_cases hc : c = '#'
    · subst hc
      simp only [Bool.or_eq_true, Bool.and_eq_true, beq_iff_eq]
      constructor
      · intro h
        rcases h with h1 | ⟨hl, h2⟩
        · refine ⟨rest, Or.inl rfl, ?_⟩
          unfold hexCoreMatch at h1
          rw [Bool.and_eq_true, Bool.or_eq_true] at h1
          simp only [beq_iff_eq] at h1
          exact ⟨h1.1, h1.2⟩
        · rcases List.getLast?_eq_some_iff.mp hl with ⟨ys, hys⟩
          rw [hys, List.dropLast_concat] at h2
          refine ⟨ys, Or.inr (by rw [hys]), ?_⟩
          unfold hexCoreMatch at h2
          rw [Bool.and_eq_true, Bool.or_eq_true] at h2
          simp only [beq_iff_eq] at h2
          exact ⟨h2.1, h2.2⟩
      · rintro ⟨d, hd | hd, hlen, hhex⟩
        · have : rest = d := by
            have := hd
            simp only [List.cons.injEq] at this
            exact this.2
          subst this
          left
          unfold hexCoreMatch
          rw [Bool.and_eq_true, Bool.or_eq_true]
          simp only [beq_iff_eq]
          exact ⟨hlen, hhex⟩
        · have : rest = d ++ ['\n'] := by
            simp only [List.cons.injEq] at hd
            exact hd.2
          subst this
          right
          rw [List.getLast?_concat, List.dropLast_concat]
          refine ⟨rfl, ?_⟩
          unfold hexCoreMatch
          rw [Bool.and_eq_true, Bool.or_eq_true]
          simp only [beq_iff_eq]
          exact ⟨hlen, hhex⟩
    · constructor
      · intro h
        exfalso
        cases c with
        | mk v hv =>
          revert h
          split
          · rename_i heq
            exact absurd (List.cons.inj heq).1 hc
          · intro h; cases h
      · rintro ⟨d, hd | hd, _, _⟩ <;>
          exact absurd (List.cons.inj hd).1 hc

theorem is_hex_color_iff_hex_grammar_newline_witness :
    is_hex_color "#0f0\n" = true :=
  (is_hex_color_iff_hex_grammar_newline "#0f0\n").mpr
    ⟨['0', 'f', '0'], Or.inr (by decide), Or.inl (by decide), by decide⟩

/-- C8.  The validators are total: `is_valid_url` wraps the parse in
`try/except`, so any `ValueError` from `urlparse` yields `False` rather
than propagating, and `is_hex_color` always returns one of the two
booleans. -/
theorem validators_total_parse_failure_false :
    (∀ (s : String) (m : List Char),
        urlsplitSN (pyStrip s.data) = .error m → is_valid_url s = false) ∧
    (∀ v : String, is_hex_color v = true ∨ is_hex_color v = false) := by
  constructor
  · intro s m h
    unfold is_valid_url
    rw [h]
  · intro v
    cases hv : is_hex_color v
    · exact Or.inr rfl
    · exact Or.inl rfl

theorem validators_total_parse_failure_false_witness :
    is_valid_url "http://[abc" = false :=
  validators_total_parse_failure_false.1 "http://[abc"
    ("Invalid IPv6 URL".data) (by decide)

/-- C1, counterexample.  `urlparse` lowercases the scheme before
`is_valid_url` compares it with the lowercase literals, so
`"HTTP://example.com"` — which has no lowercase `http://`/`https://`
prefix — is accepted, contradicting the claimed case-sensitive
rejection. -/
theorem is_valid_url_uppercase_scheme_accepted :
    is_valid_url "HTTP://example.com" = true ∧
    lowercaseHttpScheme (pyStrip "HTTP://example.com".data) = false := by
  decide

/-- C3, counterexample.  On a relative output path, `generate_qr` returns
the relative path with the `.png` suffix applied — not the resolved
absolute path: resolving the returned value (under any cwd, here
`/home`) changes it. -/
theorem generate_qr_result_not_resolved :
    (generate_qr "https://example.com" ⟨false, ["out.jpg".data]⟩ 10 4
        "#000000" "#FFFFFF").result = .ok ⟨false, ["out.png".data]⟩ ∧
    (PyPath.mk false ["out.png".data]).isAbs = false ∧
    pyResolve ⟨true, ["home".data]⟩ ⟨false, ["out.png".data]⟩ ≠
      ⟨false, ["out.png".data]⟩ := by
  decide

/-- C4, counterexample.  A request with `moduleSize = 0` is *not*
rejected before downstream work: `generate_qr` performs no size
validation of its own, and the rejection (`ValueError` for `box_size`)
happens inside the external `qrcode.QRCode` constructor — i.e. after an
external call was already attempted (non-empty event trace). -/
theorem generate_qr_box_check_not_eager :
    (generate_qr "https://example.com" ⟨false, ["out".data]⟩ 0 4
        "#000000" "#FFFFFF").events = [Event.constructQR 0 4] ∧
    (generate_qr "https://example.com" ⟨false, ["out".data]⟩ 0 4
        "#000000" "#FFFFFF").events ≠ [] ∧
    (generate_qr "https://example.com" ⟨false, ["out".data]⟩ 0 4
        "#000000" "#FFFFFF").result =
      .err (.externalValueError ("box_size".data)) := by
  decide

/-- C4, amended.  `generate_qr` performs no validation of `box_size` or
`border` itself: with a valid URL and valid colors, a request with
`box_size ≤ 0` or `border < 0` proceeds to the external
`qrcode.QRCode` construction (downstream work is attempted) and is
rejected there by the library's argument checks, not eagerly by the
repository code. -/
theorem generate_qr_size_checks_external (url : String) (out_path : PyPath)
    (box_size border : Int) (fill back : String)
    (h1 : is_valid_url url = true) (h2 : is_hex_color fill = true)
    (h3 : is_hex_color back = true) (h4 : box_size ≤ 0 ∨ border < 0) :
    (generate_qr url out_path box_size border fill back).events =
      [Event.constructQR box_size border] ∧
    ∃ w, (generate_qr url out_path box_size border fill back).result =
      GenResult.err (.externalValueError w) := by
  by_cases hb : box_size ≤ 0
  · refine ⟨?_, ⟨"box_size".data, ?_⟩⟩ <;> simp [generate_qr, h1, h2, h3, hb]
  · have hbd : border < 0 := by
      rcases h4 with h | h
      · exact absurd h hb
      · exact h
    refine ⟨?_, ⟨"border".data, ?_⟩⟩ <;>
      simp [generate_qr, h1, h2, h3, hb, hbd]

theorem generate_qr_size_checks_external_witness :
    (generate_qr "https://example.com" ⟨false, ["qr".data]⟩ 10 (-1)
        "#000000" "#FFFFFF").events = [Event.constructQR 10 (-1)] ∧
    ∃ w, (generate_qr "https://example.com" ⟨false, ["qr".data]⟩ 10 (-1)
        "#000000" "#FFFFFF").result = GenResult.err (.externalValueError w) :=
  generate_qr_size_checks_external _ _ _ _ _ _ (by decide) (by decide)
    (by decide) (Or.inr (by decide))

theorem pyWithSuffix_ok_isAbs {q p : PyPath} {sfx : List Char}
    (h : pyWithSuffix q sfx = .ok p) : p.isAbs = q.isAbs := by
  unfold pyWithSuffix at h
  split at h
  · cases h
  · split at h
    · cases h
    · split at h
      · cases h
      · split at h
        · cases h
          rfl
        · cases h
          rfl

theorem generate_qr_ok_imp_with_suffix {url : String} {out_path : PyPath}
    {box_size border : Int} {fill back : String} {p : PyPath}
    (h : (generate_qr url out_path box_size border fill back).result =
      GenResult.ok p) :
    pyWithSuffix out_path (".png".data) = .ok p := by
  cases hu : is_valid_url url with
  | false => simp [generate_qr, hu] at h
  | true =>
  cases hf : is_hex_color fill with
  | false => simp [generate_qr, hu, hf] at h
  | true =>
  cases hk : is_hex_color back with
  | false => simp [generate_qr, hu, hf, hk] at h
  | true =>
  by_cases hb : box_size ≤ 0
  · simp [generate_qr, hu, hf, hk, hb] at h
  · by_cases hbd : border < 0
    · simp [generate_qr, hu, hf, hk, hb, hbd] at h
    · cases hw : pyWithSuffix out_path (".png".data) with
      | error m => simp [generate_qr, hu, hf, hk, hb, hbd, hw] at h
      | ok p' =>
        have hres : (generate_qr url out_path box_size border fill back).result
            = GenResult.ok p' := by
          simp [generate_qr, hu, hf, hk, hb, hbd, hw]
        rw [hres] at h
        injection h with h2
        subst h2
        exact rfl

/-- C3, amended.  On success, `generate_qr` returns the *supplied* output
path with its suffix replaced by `.png`; it does not resolve it to an
absolute path (the result is absolute exactly when the supplied path
was).  Only the CLI adapter `main` resolves the path, and only for
printing. -/
theorem generate_qr_result_eq_with_suffix (url : String) (out_path : PyPath)
    (box_size border : Int) (fill back : String) (p : PyPath)
    (h : (generate_qr url out_path box_size border fill back).result =
      GenResult.ok p) :
    pyWithSuffix out_path (".png".data) = .ok p ∧
    p.isAbs = out_path.isAbs :=
  ⟨generate_qr_ok_imp_with_suffix h,
   pyWithSuffix_ok_isAbs (generate_qr_ok_imp_with_suffix h)⟩

theorem generate_qr_result_eq_with_suffix_witness :
    (generate_qr "https://example.com" ⟨false, ["pic".data]⟩ 10 4
        "#000000" "#FFFFFF").result = .ok ⟨false, ["pic.png".data]⟩ ∧
    pyWithSuffix ⟨false, ["pic".data]⟩ (".png".data) =
      .ok ⟨false, ["pic.png".data]⟩ ∧
    (PyPath.mk false ["pic.png".data]).isAbs =
      (PyPath.mk false ["pic".data]).isAbs :=
  ⟨by decide,
   generate_qr_result_eq_with_suffix "https://example.com"
     ⟨false, ["pic".data]⟩ 10 4 "#000000" "#FFFFFF"
     ⟨false, ["pic.png".data]⟩ (by decide)⟩

/-- C10.  URL validation trims the input, but the payload handed to the
symbol encoder (`qr.add_data(url)`) is the original untrimmed string:
for a whitespace-wrapped valid URL, `generate_qr` gets past validation
and the trace records an encoding of the original string — and records
no encoding of the trimmed form, which differs from it. -/
theorem generate_qr_encodes_untrimmed_payload (url : String)
    (out_path : PyPath) (box_size border : Int) (fill back : String)
    (h1 : is_valid_url url = true) (h2 : is_hex_color fill = true)
    (h3 : is_hex_color back = true) (h4 : 0 < box_size) (h5 : 0 ≤ border)
    (h6 : url.data ≠ pyStrip url.data) :
    Event.addData url.data ∈
      (generate_qr url out_path box_size border fill back).events ∧
    Event.addData (pyStrip url.data) ∉
      (generate_qr url out_path box_size border fill back).events := by
  have hb : ¬ box_size ≤ 0 := by omega
  have hbd : ¬ border < 0 := by omega
  have hne : ¬ pyStrip url.data = url.data := fun hh => h6 hh.symm
  cases hw : pyWithSuffix out_path (".png".data) with
  | error m =>
    constructor <;> simp [generate_qr, h1, h2, h3, hb, hbd, hw, hne]
  | ok p' =>
    constructor <;> simp [generate_qr, h1, h2, h3, hb, hbd, hw, hne]

theorem takeWhile_ne_dot_concrete (xs : List Char) :
    ('g' :: 'n' :: 'p' :: '.' :: xs).takeWhile (fun c => c ≠ '.') =
      ['g', 'n', 'p'] := by
  rw [List.takeWhile_cons_of_pos (by decide),
    List.takeWhile_cons_of_pos (by decide),
    List.takeWhile_cons_of_pos (by decide),
    List.takeWhile_cons_of_neg (by decide)]

theorem pySuffix_append_png {stem : List Char} (h : stem ≠ []) :
    pySuffix (stem ++ ".png".data) = ".png".data := by
  unfold pySuffix
  have hrev : (stem ++ ".png".data).reverse =
      'g' :: 'n' :: 'p' :: '.' :: stem.reverse := by
    rw [List.reverse_append]
    rfl
  have hlen : (stem ++ ".png".data).length = stem.length + 4 := by
    rw [List.length_append]
    rfl
  rw [hrev, takeWhile_ne_dot_concrete, hlen]
  have hpos : 0 < stem.length := List.length_pos.mpr h
  rw [if_pos ⟨by decide, by
    simp only [List.length_cons, List.length_nil]
    omega⟩]
  rfl

theorem pySuffix_bounds {n : List Char} (h : ¬(pySuffix n).isEmpty = true) :
    0 < (pySuffix n).length ∧ (pySuffix n).length < n.length := by
  unfold pySuffix at h ⊢
  by_cases hc : 0 < (n.reverse.takeWhile (fun c => c ≠ '.')).length ∧
      (n.reverse.takeWhile (fun c => c ≠ '.')).length + 1 < n.length
  · rw [if_pos hc]
    simp only [List.length_cons, List.length_reverse]
    omega
  · rw [if_neg hc] at h
    exact absurd rfl h

theorem pyWithSuffix_png_suffix {q p : PyPath}
    (h : pyWithSuffix q (".png".data) = .ok p) :
    pySuffix (pyName p) = ".png".data := by
  unfold pyWithSuffix at h
  rw [if_neg (by decide), if_neg (by decide)] at h
  by_cases hn : (pyName q).isEmpty = true
  · rw [if_pos hn] at h
    cases h
  · rw [if_neg hn] at h
    have hqne : pyName q ≠ [] := by
      intro he
      rw [he] at hn
      exact hn rfl
    by_cases ho : (pySuffix (pyName q)).isEmpty = true
    · rw [if_pos ho] at h
      injection h with h2
      subst h2
      show pySuffix ((PyPath.mk q.isAbs
        (q.parts.dropLast ++ [pyName q ++ ".png".data])).parts.getLast?.getD [])
          = ".png".data
      rw [List.getLast?_concat]
      exact pySuffix_append_png hqne
    · rw [if_neg ho] at h
      injection h with h2
      subst h2
      have hb := pySuffix_bounds ho
      show pySuffix ((PyPath.mk q.isAbs (q.parts.dropLast ++
        [(pyName q).take ((pyName q).length - (pySuffix (pyName q)).length) ++
          ".png".data])).parts.getLast?.getD []) = ".png".data
      rw [List.getLast?_concat]
      apply pySuffix_append_png
      intro he
      have hl := congrArg List.length he
      rw [List.length_take] at hl
      simp only [List.length_nil] at hl
      omega

/-- C5.  For every successful invocation, the returned (and saved) path
has its extension replaced by the canonical `.png` — whatever extension,
or none, the caller supplied: the suffix of the result's final component
is always `.png`. -/
theorem generate_qr_output_suffix_png (url : String) (out_path : PyPath)
    (box_size border : Int) (fill back : String) (p : PyPath)
    (h : (generate_qr url out_path box_size border fill back).result =
      GenResult.ok p) :
    pySuffix (pyName p) = ".png".data :=
  pyWithSuffix_png_suffix (generate_qr_ok_imp_with_suffix h)

theorem generate_qr_output_suffix_png_witness :
    (generate_qr "https://example.com" ⟨false, ["qr_output".data]⟩ 10 4
        "#000000" "#FFFFFF").result = .ok ⟨false, ["qr_output.png".data]⟩ ∧
    pySuffix (pyName ⟨false, ["qr_output.png".data]⟩) = ".png".data :=
  ⟨by decide,
   generate_qr_output_suffix_png "https://example.com"
     ⟨false, ["qr_output".data]⟩ 10 4 "#000000" "#FFFFFF"
     ⟨false, ["qr_output.png".data]⟩ (by decide)⟩

theorem generate_qr_encodes_untrimmed_payload_witness :
    Event.addData (" https://example.com ".data) ∈
      (generate_qr " https://example.com " ⟨false, ["w".data]⟩ 10 4
        "#000000" "#FFFFFF").events ∧
    Event.addData (pyStrip (" https://example.com ".data)) ∉
      (generate_qr " https://example.com " ⟨false, ["w".data]⟩ 10 4
        "#000000" "#FFFFFF").events :=
  generate_qr_encodes_untrimmed_payload _ _ _ _ _ _ (by decide) (by decide)
    (by decide) (by decide) (by decide) (by decide)

/-! ## C1: scheme handling of `is_valid_url` -/

theorem pyIsSpace_not_schemeChar :
    ∀ x, pyIsSpace x = true → isSchemeChar x = false := by
  intro x hx
  rcases pyIsSpace_true_cases hx with
    rfl | rfl | rfl | rfl | rfl | rfl | rfl | rfl | rfl | rfl | rfl <;> decide

theorem pyIsSpace_not_alpha :
    ∀ x, pyIsSpace x = true → x.isAlpha = false := by
  intro x hx
  rcases pyIsSpace_true_cases hx with
    rfl | rfl | rfl | rfl | rfl | rfl | rfl | rfl | rfl | rfl | rfl <;> decide

theorem pyIsSpace_not_hostChar :
    ∀ x, pyIsSpace x = true → isHostChar x = false := by
  intro x hx
  rcases pyIsSpace_true_cases hx with
    rfl | rfl | rfl | rfl | rfl | rfl | rfl | rfl | rfl | rfl | rfl <;> decide

theorem not_space_of_class {p : Char → Bool}
    (hp : ∀ x, pyIsSpace x = true → p x = false) {c : Char}
    (hc : p c = true) : pyIsSpace c = false := by
  cases hsp : pyIsSpace c
  · rfl
  · rw [hp c hsp] at hc
    cases hc

theorem removeTabCrNl_eq_self {l : List Char}
    (h : l.all (fun c => !pyIsSpace c) = true) : removeTabCrNl l = l := by
  unfold removeTabCrNl
  rw [List.filter_eq_self]
  intro a ha
  rw [List.all_eq_true] at h
  have h2 := h a ha
  have hsp : pyIsSpace a = false := by
    cases hq : pyIsSpace a
    · rfl
    · rw [hq] at h2
      cases h2
  by_cases h1 : a = '\t'
  · subst h1
    exact absurd hsp (by decide)
  · by_cases h3 : a = '\r'
    · subst h3
      exact absurd hsp (by decide)
    · by_cases h4 : a = '\n'
      · subst h4
        exact absurd hsp (by decide)
      · simp [h1, h3, h4]

theorem urlChars_not_space {c : Char} {w hst : List Char}
    (hca : c.isAlpha = true) (hwa : w.all isSchemeChar = true)
    (hha : hst.all isHostChar = true) :
    (c :: (w ++ ':' :: '/' :: '/' :: hst)).all (fun x => !pyIsSpace x)
      = true := by
  rw [List.all_eq_true]
  intro x hx
  have hxs : pyIsSpace x = false := by
    rcases List.mem_cons.mp hx with rfl | hx2
    · exact not_space_of_class pyIsSpace_not_alpha hca
    · rcases List.mem_append.mp hx2 with hw' | hx3
      · exact not_space_of_class pyIsSpace_not_schemeChar
          (List.all_eq_true.mp hwa x hw')
      · rcases List.mem_cons.mp hx3 with rfl | hx4
        · decide
        · rcases List.mem_cons.mp hx4 with rfl | hx5
          · decide
          · rcases List.mem_cons.mp hx5 with rfl | hx6
            · decide
            · exact not_space_of_class pyIsSpace_not_hostChar
                (List.all_eq_true.mp hha x hx6)
  simp [hxs]

theorem splitScheme_scheme_host {c : Char} {w hst : List Char}
    (hca : c.isAlpha = true) (hwa : w.all isSchemeChar = true) :
    splitScheme (c :: (w ++ ':' :: '/' :: '/' :: hst)) =
      ((c :: w).map Char.toLower, '/' :: '/' :: hst) := by
  have hcw_all : (c :: w).all (fun x => x ≠ ':') = true := by
    rw [List.all_eq_true]
    intro x hx
    rcases List.mem_cons.mp hx with rfl | hxw
    · apply decide_eq_true
      intro he
      rw [he] at hca
      exact absurd hca (by decide)
    · apply decide_eq_true
      intro he
      have h2 := List.all_eq_true.mp hwa x hxw
      rw [he] at h2
      exact absurd h2 (by decide)
  have hpre : (c :: (w ++ ':' :: '/' :: '/' :: hst)).takeWhile
      (fun x => x ≠ ':') = c :: w := by
    show ((c :: w) ++ ':' :: ('/' :: '/' :: hst)).takeWhile
      (fun x => x ≠ ':') = c :: w
    exact takeWhile_append_stop _ hcw_all (by decide)
  have hassoc : c :: (w ++ ':' :: '/' :: '/' :: hst) =
      ((c :: w) ++ [':']) ++ ('/' :: '/' :: hst) := by
    simp
  have hdrop2 : (c :: (w ++ ':' :: '/' :: '/' :: hst)).drop
      ((c :: w).length + 1) = '/' :: '/' :: hst := by
    rw [hassoc]
    have hlen : (c :: w).length + 1 = ((c :: w) ++ [':']).length := by
      simp
    rw [hlen, List.drop_left]
  simp only [splitScheme]
  rw [hpre]
  rw [if_pos ?hcond]
  case hcond =>
    refine ⟨?_, by simp, hca, by simpa using hwa⟩
    rw [hassoc]
    simp only [List.length_append, List.length_cons]
    omega
  rw [hdrop2]

theorem splitNetloc_host {hst : List Char} (hha : hst.all isHostChar = true) :
    splitNetloc ('/' :: '/' :: hst) = (hst, []) := by
  have hpred : hst.all (fun x => !(x = '/' || x = '?' || x = '#')) = true := by
    rw [List.all_eq_true]
    intro x hx
    have hxh := List.all_eq_true.mp hha x hx
    by_cases h1 : x = '/'
    · rw [h1] at hxh
      exact absurd hxh (by decide)
    · by_cases h2 : x = '?'
      · rw [h2] at hxh
        exact absurd hxh (by decide)
      · by_cases h3 : x = '#'
        · rw [h3] at hxh
          exact absurd hxh (by decide)
        · simp [h1, h2, h3]
  simp only [splitNetloc]
  rw [takeWhile_eq_self_of_all hpred, List.drop_length]

theorem checkNetloc_ascii_host {sc hst : List Char}
    (hha : hst.all isHostChar = true) :
    checkNetloc sc hst = .ok sc hst := by
  have hnb1 : hst.contains '[' = false :=
    contains_eq_false_of_all hha (by decide)
  have hnb2 : hst.contains ']' = false :=
    contains_eq_false_of_all hha (by decide)
  have hascii : hst.all (fun x => x.toNat < 128) = true := by
    rw [List.all_eq_true]
    intro x hx
    have hxh := List.all_eq_true.mp hha x hx
    unfold isHostChar at hxh
    rw [Bool.and_eq_true] at hxh
    exact hxh.1
  unfold checkNetloc
  rw [hnb1, hnb2]
  simp [hascii]

theorem urlsplitSN_scheme_host {c : Char} {w hst : List Char}
    (hca : c.isAlpha = true) (hwa : w.all isSchemeChar = true)
    (hha : hst.all isHostChar = true) :
    urlsplitSN (c :: (w ++ ':' :: '/' :: '/' :: hst)) =
      .ok ((c :: w).map Char.toLower) hst := by
  have hall := urlChars_not_space hca hwa hha
  have hdw : (c :: (w ++ ':' :: '/' :: '/' :: hst)).dropWhile isC0OrSpace
      = c :: (w ++ ':' :: '/' :: '/' :: hst) :=
    List.dropWhile_cons_of_neg (by simp [isC0OrSpace_false_of_alpha hca])
  unfold urlsplitSN
  rw [hdw, removeTabCrNl_eq_self hall, splitScheme_scheme_host hca hwa]
  show checkNetloc ((c :: w).map Char.toLower)
    (splitNetloc ('/' :: '/' :: hst)).1 = _
  rw [splitNetloc_host hha]
  exact checkNetloc_ascii_host hha

/-- C1, amended.  `is_valid_url` returns true only if, after trimming,
the string parses as a URI whose scheme — *lowercased by the parser* —
is `http` or `https` and whose network-location is non-empty; because
`urlparse` lowercases the scheme, the match is effectively
case-insensitive: for any scheme word (initial ASCII letter followed by
scheme characters) and non-empty ASCII host, the URL
`<scheme>://<host>` is accepted exactly when the scheme lowercases to
`http` or `https`. -/
theorem is_valid_url_scheme_lowercased :
    (∀ s : String, is_valid_url s = true →
      ∃ scheme netloc : List Char,
        urlsplitSN (pyStrip s.data) = .ok scheme netloc ∧
        (scheme = "http".data ∨ scheme = "https".data) ∧ netloc ≠ []) ∧
    (∀ (c : Char) (w hst : List Char),
      c.isAlpha = true → w.all isSchemeChar = true →
      hst ≠ [] → hst.all isHostChar = true →
      is_valid_url ⟨c :: (w ++ ':' :: '/' :: '/' :: hst)⟩ =
        ((c :: w).map Char.toLower == "http".data ||
         (c :: w).map Char.toLower == "https".data)) := by
  constructor
  · intro s hs
    unfold is_valid_url at hs
    cases hsp : urlsplitSN (pyStrip s.data) with
    | error m =>
      rw [hsp] at hs
      cases hs
    | ok sc nl =>
      rw [hsp] at hs
      rw [Bool.and_eq_true, Bool.or_eq_true] at hs
      refine ⟨sc, nl, rfl, ?_, ?_⟩
      · rcases hs.1 with hh | hh
        · exact Or.inl (by simpa using hh)
        · exact Or.inr (by simpa using hh)
      · intro he
        rw [he] at hs
        have h2 := hs.2
        simp at h2
  · intro c w hst hca hwa hne hha
    have hstrip : pyStrip (c :: (w ++ ':' :: '/' :: '/' :: hst)) =
        c :: (w ++ ':' :: '/' :: '/' :: hst) :=
      pyStrip_eq_self_of_all (urlChars_not_space hca hwa hha)
    have hempty : hst.isEmpty = false := by
      cases hst with
      | nil => exact absurd rfl hne
      | cons a t => rfl
    unfold is_valid_url
    rw [show (String.mk (c :: (w ++ ':' :: '/' :: '/' :: hst))).data =
      c :: (w ++ ':' :: '/' :: '/' :: hst) from rfl]
    rw [hstrip, urlsplitSN_scheme_host hca hwa hha]
    show ((List.map Char.toLower (c :: w) == "http".data ||
        List.map Char.toLower (c :: w) == "https".data) && !(hst.isEmpty)) =
      (List.map Char.toLower (c :: w) == "http".data ||
        List.map Char.toLower (c :: w) == "https".data)
    rw [hempty, Bool.not_false, Bool.and_true]

theorem is_valid_url_scheme_lowercased_witness :
    is_valid_url "HTTPS://example.com" = true := by
  have h := is_valid_url_scheme_lowercased.2 'H' ("TTPS".data)
    ("example.com".data) (by decide) (by decide) (by decide) (by decide)
  have he : (⟨'H' :: ("TTPS".data ++ ':' :: '/' :: '/' ::
      "example.com".data)⟩ : String) = "HTTPS://example.com" := by decide
  rw [he] at h
  rw [h]
  decide
